import Mathlib

/-!
Verification of the Camiones QR fleet-registry server against its
specification.  The definitions below are a shallow embedding of the
JavaScript source (`server.js` and its variants): dates are modelled as
integer day numbers (a calendar date truncated to midnight), JavaScript
millisecond timestamps of such midnights are `day * msPerDay`, strings
are Lean `String`s with character-wise lower/upper-casing mirroring
`toLowerCase`/`toUpperCase` on the ASCII references the app produces,
and each Express route handler becomes a pure state-passing function
whose external effects (mail sending) are inputs.
-/

namespace CamionesQR

/-- `1000*60*60*24`, the divisor used by the source in
`Math.floor((v - today)/(1000*60*60*24))`. -/
def msPerDay : Int := 1000 * 60 * 60 * 24

/-- JavaScript `toLowerCase`, character-wise (the references the app
compares are ASCII paths). -/
def jsLower (s : String) : String := ⟨s.data.map Char.toLower⟩

/-- JavaScript `toUpperCase`, character-wise. -/
def jsUpper (s : String) : String := ⟨s.data.map Char.toUpper⟩

def jsTrimList (l : List Char) : List Char :=
  ((l.dropWhile Char.isWhitespace).reverse.dropWhile Char.isWhitespace).reverse

/-- JavaScript `String.prototype.trim`. -/
def jsTrim (s : String) : String := ⟨jsTrimList s.data⟩

def lastSegAux : List Char → List Char → List Char
  | [], acc => acc.reverse
  | c :: cs, acc => if c = '/' then lastSegAux cs [] else lastSegAux cs (c :: acc)

/-- JavaScript `s.split('/').pop()`: the substring after the last
slash (the whole string when there is none). -/
def lastSeg (s : String) : String := ⟨lastSegAux s.data []⟩

/-- The four document lifecycle states produced by the status engine:
`sin-fecha`, `vencido`, `por-vencer`, `vigente`. -/
inductive Estado where
  | sinFecha
  | vencido
  | porVencer
  | vigente
deriving DecidableEq, Repr

/-- The expiration value handed to `docStatus`: JavaScript `null`/empty
(falsy), a string that `new Date` fails to parse (`isNaN`), or a parsed
calendar date given as a day number (midnight). -/
inductive DateInput where
  | nullv
  | invalid
  | valid (day : Int)
deriving DecidableEq, Repr

/-- The `{ estado, dias }` record returned by `docStatus`. -/
structure DocView where
  estado : Estado
  dias : Option Int
deriving DecidableEq, Repr

/-- `Math.floor((v - today)/(1000*60*60*24))` where `v` and `today` are
the millisecond timestamps of the midnights of the two calendar days.
`Int.fdiv` is floor division, as `Math.floor` of an exact rational. -/
def jsDayDiff (expDay today : Int) : Int :=
  Int.fdiv (expDay * msPerDay - today * msPerDay) msPerDay

/-- Shallow embedding of `docStatus` (status engine):
null/unparseable dates give `sin-fecha` with `dias = null`, otherwise
the floored day difference is classified as `vencido` (< 0),
`por-vencer` (≤ 30) or `vigente` (> 30). -/
def docStatus (d : DateInput) (today : Int) : DocView :=
  match d with
  | .nullv => ⟨.sinFecha, none⟩
  | .invalid => ⟨.sinFecha, none⟩
  | .valid e =>
    let diff := jsDayDiff e today
    if diff < 0 then ⟨.vencido, some diff⟩
    else if diff ≤ 30 then ⟨.porVencer, some diff⟩
    else ⟨.vigente, some diff⟩

theorem jsDayDiff_eq (e t : Int) : jsDayDiff e t = e - t := by
  unfold jsDayDiff msPerDay
  rw [show e * (1000 * 60 * 60 * 24) - t * (1000 * 60 * 60 * 24)
        = (e - t) * (1000 * 60 * 60 * 24) by ring]
  exact Int.mul_fdiv_cancel _ (by norm_num)

/-- C1: the status engine classifies by the floored day-count
`floor((expiration − today) in whole days)`: `sin-fecha` (no-date) when
the expiration is null, `vencido` (expired) with negative day-count
equal to the exact day difference when the expiration is strictly
before today, `por-vencer` (expiring-soon) with day-count 0..30 when
the expiration is today through 30 days ahead inclusive, and `vigente`
(current) with day-count > 30 otherwise. -/
theorem claim1_docStatus_classification (e t : Int) :
    docStatus .nullv t = ⟨.sinFecha, none⟩ ∧
    (e < t → docStatus (.valid e) t = ⟨.vencido, some (e - t)⟩ ∧ e - t < 0) ∧
    (t ≤ e ∧ e ≤ t + 30 →
      docStatus (.valid e) t = ⟨.porVencer, some (e - t)⟩ ∧ 0 ≤ e - t ∧ e - t ≤ 30) ∧
    (t + 30 < e → docStatus (.valid e) t = ⟨.vigente, some (e - t)⟩ ∧ 30 < e - t) := by
  refine ⟨rfl, fun h => ?_, fun h => ?_, fun h => ?_⟩ <;>
    simp only [docStatus, jsDayDiff_eq]
  · rw [if_pos (by omega)]
    exact ⟨rfl, by omega⟩
  · rw [if_neg (by omega), if_pos (by omega)]
    exact ⟨rfl, by omega, by omega⟩
  · rw [if_neg (by omega), if_neg (by omega)]
    exact ⟨rfl, by omega⟩

theorem claim1_docStatus_classification_witness :
    docStatus (.valid 5) 10 = ⟨.vencido, some (-5)⟩ ∧
    docStatus (.valid 10) 10 = ⟨.porVencer, some 0⟩ ∧
    docStatus (.valid 45) 10 = ⟨.vigente, some 35⟩ :=
  ⟨((claim1_docStatus_classification 5 10).2.1 (by norm_num)).1,
   ((claim1_docStatus_classification 10 10).2.2.1 ⟨le_refl _, by norm_num⟩).1,
   ((claim1_docStatus_classification 45 10).2.2.2 (by norm_num)).1⟩

/-- C10: the status engine is total — every input, including a string
that does not parse as a calendar date (the `isNaN` guard), yields a
result, and the `sin-fecha` state with null day-count is produced
exactly for the null and the unparseable inputs; every parsed date gets
one of the other three states with a non-null day-count. -/
theorem claim10_docStatus_total (d : DateInput) (t : Int) :
    docStatus .invalid t = ⟨.sinFecha, none⟩ ∧
    ((docStatus d t).estado = .sinFecha ∧ (docStatus d t).dias = none
      ↔ d = .nullv ∨ d = .invalid) := by
  refine ⟨rfl, ?_⟩
  cases d with
  | nullv => simp [docStatus]
  | invalid => simp [docStatus]
  | valid e =>
    simp only [docStatus, jsDayDiff_eq]
    constructor
    · intro h
      split at h <;> simp_all
      split at h <;> simp_all
    · intro h
      cases h <;> simp_all

/-- A row of the `documents` table: id (primary key), owning plate,
category, title, nullable expiration date (as a day number), nullable
file reference, and the one-shot `alert22Sent` flag. -/
structure Doc where
  id : String
  placa : String
  categoria : String
  titulo : String
  fecha : Option Int
  url : Option String
  alert22Sent : Bool
deriving DecidableEq, Repr

/-- The cron sweep's selection query:
`WHERE fecha_vencimiento IS NOT NULL AND DATEDIFF(fecha, CURDATE()) = 22
AND alert22Sent = 0`.  SQL `DATEDIFF` of two dates is their exact day
difference. -/
def sweepSelect (docs : List Doc) (today : Int) : List Doc :=
  docs.filter fun d =>
    match d.fecha with
    | none => false
    | some e => e - today == 22 && !d.alert22Sent

/-- `UPDATE documents SET alert22Sent = 1 WHERE id IN (ids)`. -/
def setAlertSent (ids : List String) (docs : List Doc) : List Doc :=
  docs.map fun d => if d.id ∈ ids then { d with alert22Sent := true } else d

/-- Outcome of one cron sweep run: the resulting document table, whether
the consolidated mail went out, and the ids whose flag was set. -/
structure SweepResult where
  docs : List Doc
  mailSent : Bool
  flaggedIds : List String
deriving DecidableEq, Repr

/-- Shallow embedding of the daily cron callback.  `channelReady`
models `transporter && process.env.ALERT_EMAIL_TO`; `sendOk` models
whether `transporter.sendMail` resolves.  The handler's body is wrapped
in try/catch, so a send failure aborts before the `UPDATE` and the
callback still returns normally; when no rows qualify or the channel is
unconfigured nothing is sent and nothing changes. -/
def sweep (docs : List Doc) (today : Int) (channelReady sendOk : Bool) :
    SweepResult :=
  let rows := sweepSelect docs today
  if rows ≠ [] ∧ channelReady then
    if sendOk then
      let ids := rows.map Doc.id
      ⟨setAlertSent ids docs, true, ids⟩
    else
      ⟨docs, false, []⟩
  else
    ⟨docs, false, []⟩

/-- C2: a document's alert flag is set only after the consolidated
notification was sent successfully; on send failure or an unconfigured
channel the sweep completes with the store untouched, and on success
exactly the notified documents are flagged. -/
theorem claim2_sweep_flags_only_after_send
    (docs : List Doc) (today : Int) (ch so : Bool) :
    (sweep docs today ch false).docs = docs ∧
    (sweep docs today false so).docs = docs ∧
    ((sweep docs today ch so).mailSent = false →
      (sweep docs today ch so).docs = docs ∧
      (sweep docs today ch so).flaggedIds = []) ∧
    ((sweep docs today ch so).mailSent = true →
      ch = true ∧ so = true ∧
      (sweep docs today ch so).flaggedIds = (sweepSelect docs today).map Doc.id ∧
      (sweep docs today ch so).docs =
        setAlertSent ((sweepSelect docs today).map Doc.id) docs) := by
  unfold sweep
  cases ch <;> cases so <;>
    by_cases h : sweepSelect docs today = [] <;>
    simp_all

theorem claim2_sweep_flags_only_after_send_witness :
    let d : Doc := ⟨"d1", "ABC123", "PERMISO", "Permiso", some 22, none, false⟩
    (sweep [d] 0 true true).mailSent = true ∧
    (sweep [d] 0 true true).docs = [{ d with alert22Sent := true }] :=
  ⟨rfl, by
    have h := (claim2_sweep_flags_only_after_send
      [⟨"d1", "ABC123", "PERMISO", "Permiso", some 22, none, false⟩] 0
      true true).2.2.2 (by decide)
    rw [h.2.2.2]
    decide⟩

theorem sweep_of_select_nil (docs : List Doc) (t : Int) (ch so : Bool)
    (h : sweepSelect docs t = []) : sweep docs t ch so = ⟨docs, false, []⟩ := by
  unfold sweep
  simp [h]

theorem sweepSelect_after_flag (docs : List Doc) (today : Int) :
    sweepSelect (setAlertSent ((sweepSelect docs today).map Doc.id) docs) today
      = [] := by
  unfold sweepSelect setAlertSent
  rw [List.filter_map, List.map_eq_nil_iff, List.filter_eq_nil_iff]
  intro d hd
  simp only [Function.comp_apply]
  by_cases hmem : d.id ∈ (List.filter (fun d =>
      match d.fecha with
      | none => false
      | some e => e - today == 22 && !d.alert22Sent) docs).map Doc.id
  · rw [if_pos hmem]
    cases hf : d.fecha <;> simp
  · rw [if_neg hmem]
    cases hf : d.fecha with
    | none => simp
    | some e =>
      simp only [Bool.and_eq_true, beq_iff_eq, Bool.not_eq_eq_eq_not,
        Bool.not_true, Bool.not_eq_true, not_and]
      intro h22 hsent
      exfalso
      apply hmem
      refine List.mem_map.mpr ⟨d, ?_, rfl⟩
      rw [List.mem_filter, hf]
      exact ⟨hd, by simp [h22, hsent]⟩

/-- C3: the sweep is idempotent on the alert flag: after a successful
run (both sends succeeding), a second run on the same day selects
nothing — every day-22 unsent document was flagged by the first run —
so it sends no mail, flags nothing, and leaves the store unchanged: at
most one notification per document. -/
theorem claim3_sweep_idempotent (docs : List Doc) (today : Int) :
    (sweep docs today true true).flaggedIds = (sweepSelect docs today).map Doc.id ∧
    sweepSelect (sweep docs today true true).docs today = [] ∧
    sweep (sweep docs today true true).docs today true true =
      ⟨(sweep docs today true true).docs, false, []⟩ := by
  by_cases h : sweepSelect docs today = []
  · have h0 := sweep_of_select_nil docs today true true h
    rw [h0]
    exact ⟨by simp [h], by simpa using h, sweep_of_select_nil docs today true true h⟩
  · have hdocs : (sweep docs today true true).docs =
        setAlertSent ((sweepSelect docs today).map Doc.id) docs := by
      unfold sweep
      simp [h]
    have hids : (sweep docs today true true).flaggedIds =
        (sweepSelect docs today).map Doc.id := by
      unfold sweep
      simp [h]
    have hsel : sweepSelect (sweep docs today true true).docs today = [] := by
      rw [hdocs]
      exact sweepSelect_after_flag docs today
    exact ⟨hids, hsel, sweep_of_select_nil _ _ _ _ hsel⟩

/-- The admin operations exposed on the document store: manual add
(`/admin/doc/add`), upload-with-metadata (`/admin/doc/upload`), delete
(`/admin/doc/delete`), and a run of the daily sweep.  Both add and
upload construct a document with a freshly generated id and
`alert22Sent: false`. -/
inductive AdminOp where
  | add (placa id categoria titulo : String) (fecha : Int) (url : Option String)
  | uploadDoc (placa id categoria titulo : String) (fecha : Int) (url : String)
  | deleteDoc (placa id : String)
  | runSweep (today : Int) (channelReady sendOk : Bool)

/-- `upsertDoc`: SQL `INSERT ... ON DUPLICATE KEY UPDATE` keyed on the
document id.  On key collision the row's categoria, titulo, fecha, url
and alert22Sent are overwritten (placa is not in the UPDATE list). -/
def upsertDoc (docs : List Doc) (d : Doc) : List Doc :=
  if docs.any (fun x => x.id == d.id) then
    docs.map fun x =>
      if x.id == d.id then
        { x with categoria := d.categoria, titulo := d.titulo,
                 fecha := d.fecha, url := d.url, alert22Sent := d.alert22Sent }
      else x
  else
    docs ++ [d]

/-- `deleteDoc`: `DELETE FROM documents WHERE id = ? AND placa = ?`. -/
def deleteDocRows (docs : List Doc) (placa id : String) : List Doc :=
  docs.filter fun x => !(x.id == id && x.placa == jsUpper placa)

/-- Apply one exposed operation to the document table. -/
def applyOp (docs : List Doc) : AdminOp → List Doc
  | .add placa id categoria titulo fecha url =>
      upsertDoc docs ⟨id, jsUpper placa, categoria, titulo, some fecha, url, false⟩
  | .uploadDoc placa id categoria titulo fecha url =>
      upsertDoc docs ⟨id, jsUpper placa, categoria, titulo, some fecha, some url, false⟩
  | .deleteDoc placa id => deleteDocRows docs placa id
  | .runSweep today ch so => (sweep docs today ch so).docs

def applyOps (docs : List Doc) : List AdminOp → List Doc
  | [] => docs
  | op :: ops => applyOps (applyOp docs op) ops

/-- The fresh id an add/upload operation would create, if any. -/
def opNewIds : AdminOp → List String
  | .add _ id _ _ _ _ => [id]
  | .uploadDoc _ id _ _ _ _ => [id]
  | _ => []

/-- A run of operations is well-formed when every id created by an add
or upload is a new identifier — distinct from every id ever seen so far
(`used`), as the handlers' `Date.now().toString(36) + Math.random()...`
generation intends ("new document = new identifier"). -/
def FreshRun (used : List String) (docs : List Doc) : List AdminOp → Prop
  | [] => True
  | op :: ops =>
      (∀ i ∈ opNewIds op, i ∉ used) ∧
      FreshRun (opNewIds op ++ used) (applyOp docs op) ops

theorem fresh_upsert_append (docs : List Doc) (d : Doc)
    (h : ∀ x ∈ docs, x.id ≠ d.id) : upsertDoc docs d = docs ++ [d] := by
  have hany : docs.any (fun x => x.id == d.id) = false := by
    rw [List.any_eq_false]
    intro x hx
    simpa using h x hx
  unfold upsertDoc
  rw [hany]
  simp

theorem mem_setAlertSent (ids : List String) (docs : List Doc) (d' : Doc)
    (h : d' ∈ setAlertSent ids docs) :
    ∃ x ∈ docs, d'.id = x.id ∧ (x.alert22Sent = true → d'.alert22Sent = true) := by
  unfold setAlertSent at h
  obtain ⟨x, hx, hfx⟩ := List.mem_map.mp h
  refine ⟨x, hx, ?_⟩
  by_cases hm : x.id ∈ ids
  · rw [if_pos hm] at hfx
    subst hfx
    exact ⟨rfl, fun _ => rfl⟩
  · rw [if_neg hm] at hfx
    subst hfx
    exact ⟨rfl, fun hh => hh⟩

theorem sweep_docs_cases (docs : List Doc) (t : Int) (ch so : Bool) :
    (sweep docs t ch so).docs = docs ∨
    (sweep docs t ch so).docs =
      setAlertSent ((sweepSelect docs t).map Doc.id) docs := by
  unfold sweep
  by_cases h : sweepSelect docs t = [] <;> cases ch <;> cases so <;> simp [h]

theorem mem_applyOp (used : List String) (docs : List Doc) (op : AdminOp)
    (hsub : ∀ x ∈ docs, x.id ∈ used)
    (hnew : ∀ i ∈ opNewIds op, i ∉ used) (d' : Doc)
    (hd' : d' ∈ applyOp docs op) :
    (∃ x ∈ docs, d'.id = x.id ∧ (x.alert22Sent = true → d'.alert22Sent = true)) ∨
    d'.id ∈ opNewIds op := by
  cases op with
  | add placa id categoria titulo fecha url =>
    rw [show applyOp docs (.add placa id categoria titulo fecha url)
          = docs ++ [⟨id, jsUpper placa, categoria, titulo, some fecha, url, false⟩]
        from fresh_upsert_append _ _
          (fun x hx hxi => hnew id (by simp [opNewIds]) (by
            have hxu := hsub x hx
            rw [hxi] at hxu
            exact hxu))] at hd'
    rcases List.mem_append.mp hd' with h | h
    · exact Or.inl ⟨d', h, rfl, fun hh => hh⟩
    · rw [List.mem_singleton] at h
      subst h
      exact Or.inr (by simp [opNewIds])
  | uploadDoc placa id categoria titulo fecha url =>
    rw [show applyOp docs (.uploadDoc placa id categoria titulo fecha url)
          = docs ++ [⟨id, jsUpper placa, categoria, titulo, some fecha, some url, false⟩]
        from fresh_upsert_append _ _
          (fun x hx hxi => hnew id (by simp [opNewIds]) (by
            have hxu := hsub x hx
            rw [hxi] at hxu
            exact hxu))] at hd'
    rcases List.mem_append.mp hd' with h | h
    · exact Or.inl ⟨d', h, rfl, fun hh => hh⟩
    · rw [List.mem_singleton] at h
      subst h
      exact Or.inr (by simp [opNewIds])
  | deleteDoc placa id =>
    exact Or.inl ⟨d', List.mem_of_mem_filter hd', rfl, fun hh => hh⟩
  | runSweep t ch so =>
    rcases sweep_docs_cases docs t ch so with h | h <;>
      rw [show applyOp docs (.runSweep t ch so) = (sweep docs t ch so).docs
            from rfl, h] at hd'
    · exact Or.inl ⟨d', hd', rfl, fun hh => hh⟩
    · exact Or.inl (mem_setAlertSent _ _ _ hd')

theorem upsertDoc_mem_ids (docs : List Doc) (d : Doc) (x : Doc)
    (hx : x ∈ upsertDoc docs d) : (∃ y ∈ docs, x.id = y.id) ∨ x.id = d.id := by
  unfold upsertDoc at hx
  split at hx
  · obtain ⟨y, hy, hfy⟩ := List.mem_map.mp hx
    refine Or.inl ⟨y, hy, ?_⟩
    by_cases h : (y.id == d.id) = true
    · rw [if_pos h] at hfy
      subst hfy
      rfl
    · rw [if_neg h] at hfy
      subst hfy
      rfl
  · rcases List.mem_append.mp hx with h | h
    · exact Or.inl ⟨x, h, rfl⟩
    · rw [List.mem_singleton] at h
      subst h
      exact Or.inr rfl

theorem applyOp_ids_used (used : List String) (docs : List Doc) (op : AdminOp)
    (hsub : ∀ x ∈ docs, x.id ∈ used) :
    ∀ x ∈ applyOp docs op, x.id ∈ opNewIds op ++ used := by
  intro x hx
  rw [List.mem_append]
  cases op with
  | add placa id categoria titulo fecha url =>
    rcases upsertDoc_mem_ids docs _ x hx with ⟨y, hy, hxy⟩ | h
    · exact Or.inr (hxy ▸ hsub y hy)
    · exact Or.inl (by simp [opNewIds, h])
  | uploadDoc placa id categoria titulo fecha url =>
    rcases upsertDoc_mem_ids docs _ x hx with ⟨y, hy, hxy⟩ | h
    · exact Or.inr (hxy ▸ hsub y hy)
    · exact Or.inl (by simp [opNewIds, h])
  | deleteDoc placa id =>
    exact Or.inr (hsub x (List.mem_of_mem_filter hx))
  | runSweep t ch so =>
    rcases sweep_docs_cases docs t ch so with h | h <;>
      rw [show applyOp docs (.runSweep t ch so) = (sweep docs t ch so).docs
            from rfl, h] at hx
    · exact Or.inr (hsub x hx)
    · obtain ⟨y, hy, hxy, _⟩ := mem_setAlertSent _ _ _ hx
      exact Or.inr (hxy ▸ hsub y hy)

theorem flag_stays_run (used : List String) (docs : List Doc)
    (ops : List AdminOp) (hsub : ∀ x ∈ docs, x.id ∈ used)
    (hfresh : FreshRun used docs ops) (i : String) (hi : i ∈ used)
    (hflag : ∀ x ∈ docs, x.id = i → x.alert22Sent = true) :
    ∀ d' ∈ applyOps docs ops, d'.id = i → d'.alert22Sent = true := by
  induction ops generalizing used docs with
  | nil => exact hflag
  | cons op ops ih =>
    obtain ⟨hnew, hrest⟩ := hfresh
    refine ih (opNewIds op ++ used) (applyOp docs op)
      (applyOp_ids_used used docs op hsub) hrest
      (List.mem_append.mpr (Or.inr hi)) ?_
    intro x hx hxi
    rcases mem_applyOp used docs op hsub hnew x hx with ⟨y, hy, hxy, hmono⟩ | h
    · exact hmono (hflag y hy (hxy ▸ hxi))
    · exact absurd hi (hxi ▸ hnew x.id h)

/-- C4: across any sequence of exposed operations (doc add, doc delete,
doc upload-with-metadata, daily sweep) in which created documents get
genuinely new identifiers, a document whose alert flag is true keeps a
true flag in every later state of the store under its identifier: the
flag is never reset.  `Nodup` reflects the `id` PRIMARY KEY. -/
theorem claim4_alert_flag_never_reset (docs : List Doc) (ops : List AdminOp)
    (hnd : (docs.map Doc.id).Nodup)
    (hfresh : FreshRun (docs.map Doc.id) docs ops)
    (d : Doc) (hd : d ∈ docs) (ht : d.alert22Sent = true) :
    ∀ d' ∈ applyOps docs ops, d'.id = d.id → d'.alert22Sent = true := by
  refine flag_stays_run (docs.map Doc.id) docs ops
    (fun x hx => List.mem_map.mpr ⟨x, hx, rfl⟩) hfresh d.id
    (List.mem_map.mpr ⟨d, hd, rfl⟩) ?_
  intro x hx hxi
  have := List.inj_on_of_nodup_map hnd hx hd hxi
  rw [this]
  exact ht

theorem claim4_alert_flag_never_reset_witness :
    let d0 : Doc := ⟨"d1", "ABC123", "PERMISO", "Permiso", some 40, none, true⟩
    let ops : List AdminOp :=
      [.deleteDoc "ABC123" "zz", .add "ABC123" "n1" "SEGURO" "Poliza" 22 none,
       .runSweep 0 true true]
    ∀ d' ∈ applyOps [d0] ops, d'.id = "d1" → d'.alert22Sent = true := by
  intro d0 ops
  refine claim4_alert_flag_never_reset [d0] ops (by decide) ?_ d0 (by decide) rfl
  refine ⟨?_, ?_, ?_, trivial⟩ <;> decide

/-- A row of the admin alerts listing (`listAlerts`). -/
structure AlertEntry where
  placa : String
  id : String
  categoria : String
  titulo : String
  url : Option String
  estado : Estado
  dias : Int
deriving DecidableEq, Repr

/-- The object `listAlerts` builds for one selected row: `estado` is
`vencido` when `dias < 0`, else `por-vencer`; `dias` is the SQL
`DATEDIFF(fecha_vencimiento, CURDATE())`. -/
def alertRow (today : Int) (d : Doc) (e : Int) : AlertEntry :=
  ⟨d.placa, d.id, d.categoria, d.titulo, d.url,
   if e - today < 0 then .vencido else .porVencer, e - today⟩

/-- The SQL `WHERE fecha_vencimiento IS NOT NULL AND DATEDIFF(...) ≤ 30`
selection, producing the mapped row when the document qualifies. -/
def alertRowOf (today : Int) (d : Doc) : Option AlertEntry :=
  match d.fecha with
  | none => none
  | some e => if e - today ≤ 30 then some (alertRow today d e) else none

/-- `pr` in the comparator: 0 for `vencido`, 1 for `por-vencer`. -/
def alertPr (x : AlertEntry) : Int := if x.estado = .vencido then 0 else 1

/-- The JS comparator `(a,b) => pr(a)-pr(b) || (a.dias||0)-(b.dias||0)`
as a ≤-test: `a` may precede `b` iff its pr is smaller, or the prs tie
and its day-count is not larger (`dias` is never null on selected rows,
and `0 || 0 = 0` keeps `dias = 0` unchanged). -/
def alertLeB (a b : AlertEntry) : Bool :=
  decide (alertPr a < alertPr b) ||
    (decide (alertPr a = alertPr b) && decide (a.dias ≤ b.dias))

def alertLe (a b : AlertEntry) : Prop := alertLeB a b = true

instance : DecidableRel alertLe :=
  fun _ _ => inferInstanceAs (Decidable (_ = true))

/-- `listAlerts`: select, map, then sort by the comparator (the sort is
modelled as a sort producing a permutation ordered by `alertLe`). -/
def listAlerts (docs : List Doc) (today : Int) : List AlertEntry :=
  List.insertionSort alertLe (docs.filterMap (alertRowOf today))

theorem alertLeB_iff (a b : AlertEntry) :
    alertLeB a b = true ↔
      alertPr a < alertPr b ∨ (alertPr a = alertPr b ∧ a.dias ≤ b.dias) := by
  unfold alertLeB
  simp

theorem alertLe_total : ∀ a b : AlertEntry, alertLe a b ∨ alertLe b a := by
  intro a b
  unfold alertLe
  rw [alertLeB_iff, alertLeB_iff]
  omega

theorem alertLe_trans :
    ∀ a b c : AlertEntry, alertLe a b → alertLe b c → alertLe a c := by
  intro a b c
  unfold alertLe
  rw [alertLeB_iff, alertLeB_iff, alertLeB_iff]
  omega

/-- C5: the global alerts listing holds exactly the selected documents —
a document appears iff its expiration is non-null and its status-engine
state is `vencido` or `por-vencer` (`sin-fecha` and `vigente` rows are
excluded) — and is sorted with every `vencido` row before every
`por-vencer` row and ascending day-count within each group. -/
theorem claim5_listAlerts_spec (docs : List Doc) (today : Int) :
    (listAlerts docs today).Perm (docs.filterMap (alertRowOf today)) ∧
    (∀ d, ∀ e, d.fecha = some e →
      ((alertRowOf today d).isSome ↔
        (docStatus (.valid e) today).estado = .vencido ∨
        (docStatus (.valid e) today).estado = .porVencer)) ∧
    (∀ d, d.fecha = none → alertRowOf today d = none) ∧
    (∀ x ∈ listAlerts docs today,
      (x.estado = .vencido ∧ x.dias < 0) ∨
      (x.estado = .porVencer ∧ 0 ≤ x.dias ∧ x.dias ≤ 30)) ∧
    (listAlerts docs today).Pairwise (fun a b =>
      (a.estado = .vencido ∧ b.estado = .porVencer) ∨
      (a.estado = b.estado ∧ a.dias ≤ b.dias)) := by
  have hmemOf : ∀ x ∈ listAlerts docs today,
      ∃ d ∈ docs, ∃ e, d.fecha = some e ∧ e - today ≤ 30 ∧
        x = alertRow today d e := by
    intro x hx
    have hx' : x ∈ docs.filterMap (alertRowOf today) :=
      (List.perm_insertionSort alertLe _).mem_iff.mp hx
    obtain ⟨d, hd, hrow⟩ := List.mem_filterMap.mp hx'
    cases hf : d.fecha with
    | none => simp [alertRowOf, hf] at hrow
    | some e =>
      simp only [alertRowOf, hf] at hrow
      by_cases h30 : e - today ≤ 30
      · rw [if_pos h30] at hrow
        exact ⟨d, hd, e, hf, h30, (Option.some_inj.mp hrow).symm⟩
      · rw [if_neg h30] at hrow
        exact absurd hrow (by simp)
  have hclass : ∀ x ∈ listAlerts docs today,
      (x.estado = .vencido ∧ x.dias < 0) ∨
      (x.estado = .porVencer ∧ 0 ≤ x.dias ∧ x.dias ≤ 30) := by
    intro x hx
    obtain ⟨d, _, e, _, h30, hxe⟩ := hmemOf x hx
    subst hxe
    unfold alertRow
    by_cases hneg : e - today < 0
    · rw [if_pos hneg]
      exact Or.inl ⟨rfl, hneg⟩
    · rw [if_neg hneg]
      refine Or.inr ⟨rfl, ?_, h30⟩
      show (0:Int) ≤ e - today
      omega
  refine ⟨List.perm_insertionSort alertLe _, ?_, ?_, hclass, ?_⟩
  · intro d e hf
    unfold alertRowOf
    rw [hf]
    simp only [docStatus, jsDayDiff_eq]
    by_cases h30 : e - today ≤ 30
    · rw [if_pos h30]
      by_cases hneg : e - today < 0
      · rw [if_pos hneg]
        simp
      · rw [if_neg hneg, if_pos h30]
        simp
    · rw [if_neg h30, if_neg (by omega), if_neg (by omega)]
      simp
  · intro d hf
    unfold alertRowOf
    rw [hf]
  · have hsorted : (listAlerts docs today).Pairwise alertLe := by
      haveI : IsTotal AlertEntry alertLe := ⟨alertLe_total⟩
      haveI : IsTrans AlertEntry alertLe := ⟨alertLe_trans⟩
      exact List.sorted_insertionSort alertLe _
    refine List.Pairwise.imp_of_mem ?_ hsorted
    intro a b ha hb hle
    have hca := hclass a ha
    have hcb := hclass b hb
    rw [alertLe, alertLeB_iff] at hle
    unfold alertPr at hle
    rcases hca with ⟨ha1, ha2⟩ | ⟨ha1, ha2⟩ <;> rcases hcb with ⟨hb1, hb2⟩ | ⟨hb1, hb2⟩
    · rw [ha1, hb1] at hle
      simp at hle
      exact Or.inr ⟨ha1.trans hb1.symm, hle⟩
    · exact Or.inl ⟨ha1, hb1⟩
    · rw [ha1, hb1] at hle
      simp at hle
    · rw [ha1, hb1] at hle
      simp at hle
      exact Or.inr ⟨ha1.trans hb1.symm, hle⟩

def exampleDocs : List Doc :=
  [⟨"a", "P1", "CAT", "T1", some (-5), none, false⟩,
   ⟨"b", "P1", "CAT", "T2", some 10, none, false⟩,
   ⟨"c", "P2", "CAT", "T3", some (-1), none, false⟩,
   ⟨"d", "P2", "CAT", "T4", some 40, none, false⟩,
   ⟨"e", "P3", "CAT", "T5", none, none, false⟩]

theorem claim5_listAlerts_spec_witness :
    (listAlerts exampleDocs 0).map AlertEntry.dias = [-5, -1, 10] ∧
    (((⟨"P1", "a", "CAT", "T1", none, .vencido, -5⟩ : AlertEntry).estado = .vencido ∧
       (⟨"P1", "a", "CAT", "T1", none, .vencido, -5⟩ : AlertEntry).dias < 0) ∨
     ((⟨"P1", "a", "CAT", "T1", none, .vencido, -5⟩ : AlertEntry).estado = .porVencer ∧
       0 ≤ (⟨"P1", "a", "CAT", "T1", none, .vencido, -5⟩ : AlertEntry).dias ∧
       (⟨"P1", "a", "CAT", "T1", none, .vencido, -5⟩ : AlertEntry).dias ≤ 30)) :=
  ⟨by decide,
   (claim5_listAlerts_spec exampleDocs 0).2.2.2.1
     ⟨"P1", "a", "CAT", "T1", none, .vencido, -5⟩ (by decide)⟩

/-- `fotosSinPortada` of the MySQL-BLOB variant of `server.js`: when a
cover reference is set (non-null, non-empty — JS falsy check), keep
every gallery reference whose lowercased form differs from the
lowercased cover reference.  This variant compares full references
only. -/
def fotosSinPortadaBlob (fotos : List String) (portadaUrl : Option String) :
    List String :=
  match portadaUrl with
  | none => fotos
  | some p =>
    if p = "" then fotos
    else fotos.filter fun u => jsLower u != jsLower p

/-- `fotosSinPortada` of the filesystem variants: keep a reference only
when both its lowercased form differs from the lowercased cover and its
filename (`split('/').pop()`) differs from the cover's filename. -/
def fotosSinPortadaFs (fotos : List String) (portadaUrl : Option String) :
    List String :=
  match portadaUrl with
  | none => fotos
  | some p =>
    if p = "" then fotos
    else
      fotos.filter fun u =>
        (jsLower u != jsLower p) && (lastSeg (jsLower u) != lastSeg (jsLower p))

/-- C6 counterexample: in the BLOB variant the filename fallback is not
honored — a gallery reference with the same filename as the cover under
a different path prefix is kept, not excluded. -/
theorem claim6_counterexample :
    lastSeg (jsLower "/a/img.jpg") = lastSeg (jsLower "/b/img.jpg") ∧
    fotosSinPortadaBlob ["/a/img.jpg"] (some "/b/img.jpg") = ["/a/img.jpg"] := by
  decide

/-- C6 (amended): both variants return the gallery list with the cover
removed, preserving the order of the remaining references (a sublist of
the input); matching is by case-insensitive full-reference equality,
and the filename-based fallback is honored by the filesystem variant
(but not by the BLOB variant, which matches full references only); with
photos [A, B, C] and cover B, both variants return exactly [A, C]. -/
theorem claim6_cover_exclusion (fotos : List String) (p : String)
    (hp : p ≠ "") :
    (fotosSinPortadaFs fotos (some p)).Sublist fotos ∧
    (∀ u, u ∈ fotosSinPortadaFs fotos (some p) ↔
      u ∈ fotos ∧ jsLower u ≠ jsLower p ∧
        lastSeg (jsLower u) ≠ lastSeg (jsLower p)) ∧
    (fotosSinPortadaBlob fotos (some p)).Sublist fotos ∧
    (∀ u, u ∈ fotosSinPortadaBlob fotos (some p) ↔
      u ∈ fotos ∧ jsLower u ≠ jsLower p) ∧
    fotosSinPortadaFs fotos none = fotos ∧
    fotosSinPortadaBlob fotos none = fotos ∧
    fotosSinPortadaFs ["/uploads/P/a.jpg", "/uploads/P/b.jpg", "/uploads/P/c.jpg"]
      (some "/uploads/P/b.jpg") = ["/uploads/P/a.jpg", "/uploads/P/c.jpg"] ∧
    fotosSinPortadaBlob ["/uploads/P/a.jpg", "/uploads/P/b.jpg", "/uploads/P/c.jpg"]
      (some "/uploads/P/b.jpg") = ["/uploads/P/a.jpg", "/uploads/P/c.jpg"] := by
  refine ⟨?_, ?_, ?_, ?_, rfl, rfl, by decide, by decide⟩
  · simp only [fotosSinPortadaFs]
    rw [if_neg hp]
    exact List.filter_sublist _
  · intro u
    simp only [fotosSinPortadaFs]
    rw [if_neg hp, List.mem_filter]
    simp [bne_iff_ne, and_assoc]
  · simp only [fotosSinPortadaBlob]
    rw [if_neg hp]
    exact List.filter_sublist _
  · intro u
    simp only [fotosSinPortadaBlob]
    rw [if_neg hp, List.mem_filter]
    simp [bne_iff_ne]

theorem claim6_cover_exclusion_witness :
    ("/uploads/P/b.jpg" : String) ≠ "" ∧
    ("/uploads/P/a.jpg" ∈
        fotosSinPortadaFs ["/uploads/P/a.jpg", "/uploads/P/b.jpg", "/uploads/P/c.jpg"]
          (some "/uploads/P/b.jpg") ↔
      "/uploads/P/a.jpg" ∈
          (["/uploads/P/a.jpg", "/uploads/P/b.jpg", "/uploads/P/c.jpg"] : List String) ∧
        jsLower "/uploads/P/a.jpg" ≠ jsLower "/uploads/P/b.jpg" ∧
        lastSeg (jsLower "/uploads/P/a.jpg") ≠ lastSeg (jsLower "/uploads/P/b.jpg")) :=
  ⟨by decide,
   (claim6_cover_exclusion
      ["/uploads/P/a.jpg", "/uploads/P/b.jpg", "/uploads/P/c.jpg"]
      "/uploads/P/b.jpg" (by decide)).2.1 "/uploads/P/a.jpg"⟩

/-- A row of the `reports` table. -/
structure Report where
  id : String
  placa : String
  tipo : String
  nombre : String
  telefono : String
  email : String
  mensaje : String
  createdAt : String
deriving DecidableEq, Repr

/-- The form fields of `POST /c/:placa/report`; an empty string models
an absent field (both are falsy for `req.body.x || '...'`). -/
structure ReportForm where
  tipo : String
  nombre : String
  telefono : String
  email : String
  mensaje : String
  empresa : String
deriving DecidableEq, Repr

/-- What the submitter observes: a bare redirect (honeypot hit — looks
like success, no indicator), a redirect with `?error=1`, or a redirect
with `?enviado=1`. -/
inductive ReportOutcome where
  | plainRedirect
  | errorRedirect
  | sentRedirect
deriving DecidableEq, Repr

/-- Result of the `sendMail` attempt inside the handler's try/catch:
channel unconfigured (no transporter / no recipient), resolved, or
rejected (caught and logged). -/
inductive EmailResult where
  | skipped
  | ok
  | failed
deriving DecidableEq, Repr

/-- Shallow embedding of the public report handler: trim the fields,
silently drop the submission when the honeypot field `empresa` is
non-empty, reject with the error indicator when the trimmed message is
empty or shorter than 3 characters, otherwise append the report to the
store and redirect with the success indicator.  The email attempt is
wrapped in try/catch, so `emailRes` cannot influence the result. -/
def submitReport (store : List Report) (placa : String) (form : ReportForm)
    (newId createdAt : String) (emailRes : EmailResult) :
    List Report × ReportOutcome :=
  let mensaje := jsTrim form.mensaje
  let empresa := jsTrim form.empresa
  if empresa ≠ "" then (store, .plainRedirect)
  else if mensaje = "" ∨ mensaje.length < 3 then (store, .errorRedirect)
  else
    let tipo := jsTrim (if form.tipo = "" then "Otro" else form.tipo)
    let rep : Report := ⟨newId, jsUpper placa, tipo, jsTrim form.nombre,
      jsTrim form.telefono, jsTrim form.email, mensaje, createdAt⟩
    (store ++ [rep], .sentRedirect)

/-- C7: the report handler drops a honeypot submission without touching
the store and without an error indicator; rejects a trimmed message
shorter than 3 characters with the error indicator and no store change;
and otherwise appends exactly one report built from the trimmed fields
and redirects with the success indicator. -/
theorem claim7_report_validation (store : List Report) (placa : String)
    (form : ReportForm) (newId createdAt : String) (er : EmailResult) :
    (jsTrim form.empresa ≠ "" →
      submitReport store placa form newId createdAt er =
        (store, .plainRedirect)) ∧
    (jsTrim form.empresa = "" → (jsTrim form.mensaje).length < 3 →
      submitReport store placa form newId createdAt er =
        (store, .errorRedirect)) ∧
    (jsTrim form.empresa = "" → 3 ≤ (jsTrim form.mensaje).length →
      submitReport store placa form newId createdAt er =
        (store ++ [⟨newId, jsUpper placa,
            jsTrim (if form.tipo = "" then "Otro" else form.tipo),
            jsTrim form.nombre, jsTrim form.telefono, jsTrim form.email,
            jsTrim form.mensaje, createdAt⟩], .sentRedirect)) := by
  refine ⟨fun h1 => ?_, fun h1 h2 => ?_, fun h1 h2 => ?_⟩ <;>
    unfold submitReport
  · rw [if_pos h1]
  · rw [if_neg (by simp [h1]), if_pos (Or.inr h2)]
  · have hne : jsTrim form.mensaje ≠ "" := by
      intro hnil
      rw [hnil] at h2
      exact absurd h2 (by decide)
    rw [if_neg (by simp [h1]), if_neg (by push_neg; exact ⟨hne, by omega⟩)]

theorem claim7_report_validation_witness :
    submitReport [] "abc" ⟨"", "", "", "", "ok", ""⟩ "r1" "t0" .ok =
      ([], .errorRedirect) ∧
    submitReport [] "abc" ⟨"", "", "", "", "oka", ""⟩ "r1" "t0" .ok =
      ([⟨"r1", "ABC", "Otro", "", "", "", "oka", "t0"⟩], .sentRedirect) ∧
    submitReport [] "abc" ⟨"", "", "", "", "x", "bot"⟩ "r1" "t0" .ok =
      ([], .plainRedirect) :=
  ⟨(claim7_report_validation [] "abc" ⟨"", "", "", "", "ok", ""⟩ "r1" "t0"
      .ok).2.1 (by decide) (by decide),
   by
    rw [(claim7_report_validation [] "abc" ⟨"", "", "", "", "oka", ""⟩ "r1" "t0"
      .ok).2.2 (by decide) (by decide)]
    decide,
   (claim7_report_validation [] "abc" ⟨"", "", "", "", "x", "bot"⟩ "r1" "t0"
      .ok).1 (by decide)⟩

/-- C8: for an accepted submission, the outcome — appended report and
success indicator — is the same whether the operator email is sent,
fails, or is skipped because the channel is unconfigured: the email
attempt never propagates into the response. -/
theorem claim8_email_failure_not_propagated (store : List Report)
    (placa : String) (form : ReportForm) (newId createdAt : String)
    (h1 : jsTrim form.empresa = "") (h2 : 3 ≤ (jsTrim form.mensaje).length) :
    ∀ er : EmailResult,
      submitReport store placa form newId createdAt er =
        submitReport store placa form newId createdAt .ok ∧
      (submitReport store placa form newId createdAt er).2 = .sentRedirect ∧
      (submitReport store placa form newId createdAt er).1 =
        store ++ [⟨newId, jsUpper placa,
          jsTrim (if form.tipo = "" then "Otro" else form.tipo),
          jsTrim form.nombre, jsTrim form.telefono, jsTrim form.email,
          jsTrim form.mensaje, createdAt⟩] := by
  intro er
  have hmain : ∀ e : EmailResult,
      submitReport store placa form newId createdAt e =
        (store ++ [⟨newId, jsUpper placa,
          jsTrim (if form.tipo = "" then "Otro" else form.tipo),
          jsTrim form.nombre, jsTrim form.telefono, jsTrim form.email,
          jsTrim form.mensaje, createdAt⟩], .sentRedirect) := by
    intro e
    have hne : jsTrim form.mensaje ≠ "" := by
      intro hnil
      rw [hnil] at h2
      exact absurd h2 (by decide)
    unfold submitReport
    rw [if_neg (by simp [h1]), if_neg (by push_neg; exact ⟨hne, by omega⟩)]
  rw [hmain er, hmain .ok]
  exact ⟨rfl, rfl, rfl⟩

theorem claim8_email_failure_not_propagated_witness :
    submitReport [] "abc" ⟨"", "", "", "", "oka", ""⟩ "r1" "t0" .failed =
      submitReport [] "abc" ⟨"", "", "", "", "oka", ""⟩ "r1" "t0" .ok ∧
    (submitReport [] "abc" ⟨"", "", "", "", "oka", ""⟩ "r1" "t0" .failed).2 =
      .sentRedirect :=
  ⟨(claim8_email_failure_not_propagated [] "abc" ⟨"", "", "", "", "oka", ""⟩
      "r1" "t0" (by decide) (by decide) .failed).1,
   (claim8_email_failure_not_propagated [] "abc" ⟨"", "", "", "", "oka", ""⟩
      "r1" "t0" (by decide) (by decide) .failed).2.1⟩

/-- A row of the `photos` table (MySQL BLOB variant): id, owning plate,
stored filename, MIME type and the image bytes. -/
structure Photo where
  id : String
  placa : String
  filename : String
  mime : String
  data : List Nat
deriving DecidableEq, Repr

/-- A row of the `trucks` table; `foto` is the cover reference
(`/file/:id`), empty when unset. -/
structure Truck where
  placa : String
  unidad : String
  cedis : String
  marca : String
  modelo : String
  anio : String
  vin : String
  telefono_quejas : String
  foto : String
  notas : String
deriving DecidableEq, Repr

/-- The persistent state the BLOB-variant photo routes touch. -/
structure DbState where
  trucks : List Truck
  photos : List Photo
deriving DecidableEq, Repr

/-- `[A-Za-z0-9]` of the `/\/file\/([A-Za-z0-9]+)/` pattern. -/
def isAlnum (c : Char) : Bool :=
  ('A' ≤ c && c ≤ 'Z') || ('a' ≤ c && c ≤ 'z') || ('0' ≤ c && c ≤ '9')

def takeAlnum : List Char → List Char
  | [] => []
  | c :: cs => if isAlnum c then c :: takeAlnum cs else []

/-- Leftmost match of `/\/file\/([A-Za-z0-9]+)/`: at each position, if
the text starts with `/file/` followed by at least one alphanumeric
character, capture the maximal alphanumeric run; otherwise advance. -/
def findFileIdAux : List Char → Option (List Char)
  | [] => none
  | c :: cs =>
    if ("/file/".data).isPrefixOf (c :: cs) then
      match takeAlnum ((c :: cs).drop 6) with
      | [] => findFileIdAux cs
      | idc => some idc
    else findFileIdAux cs

/-- `getIdFromUrlOrName`: extract the photo id from a `/file/:id`
reference, `null` when the pattern does not match. -/
def getIdFromUrlOrName (name : String) : Option String :=
  (findFileIdAux name.data).map fun l => ⟨l⟩

/-- `DELETE FROM photos WHERE id = ? AND placa = ?` (placa
uppercased by the helper). -/
def deletePhotoDbById (st : DbState) (pid placa : String) : DbState :=
  { st with photos := st.photos.filter fun p =>
      !(p.id == pid && p.placa == jsUpper placa) }

/-- `UPDATE photos SET filename=?, mime=?, data=? WHERE id=? AND
placa=?`. -/
def replacePhotoDbById (st : DbState) (pid placa filename mime : String)
    (data : List Nat) : DbState :=
  { st with photos := st.photos.map fun p =>
      if p.id == pid && p.placa == jsUpper placa then
        { p with filename := filename, mime := mime, data := data }
      else p }

/-- `POST /admin/photo/delete` (BLOB variant): trim and uppercase the
plate, extract the id from the submitted reference, and delete the
matching photo row; redirect without touching anything when the plate
is missing or the id does not parse. -/
def adminPhotoDelete (st : DbState) (placaRaw nameRaw : String) : DbState :=
  let placa := jsUpper (jsTrim placaRaw)
  match getIdFromUrlOrName (jsTrim nameRaw) with
  | none => st
  | some pid => if placa = "" then st else deletePhotoDbById st pid placa

/-- `POST /admin/photo/replace` (BLOB variant): like delete, but
overwrite the matching photo row with the uploaded file's name, MIME
type and bytes (the multipart plumbing that produces them is an
external collaborator); no file attached means no change. -/
def adminPhotoReplace (st : DbState) (placaRaw nameRaw : String)
    (file : Option (String × String × List Nat)) : DbState :=
  let placa := jsUpper (jsTrim placaRaw)
  match getIdFromUrlOrName (jsTrim nameRaw) with
  | none => st
  | some pid =>
    if placa = "" then st
    else
      match file with
      | none => st
      | some (fname, fmime, fdata) =>
          replacePhotoDbById st pid placa fname fmime fdata

/-- C9: the admin photo-delete and photo-replace routes never touch the
`trucks` table: every truck row — in particular its cover reference
`foto` and all other fields — is exactly as before, even when the
deleted or replaced photo is the one the cover reference points at. -/
theorem claim9_photo_ops_truck_frame (st : DbState)
    (placaRaw nameRaw : String) (file : Option (String × String × List Nat)) :
    (adminPhotoDelete st placaRaw nameRaw).trucks = st.trucks ∧
    (adminPhotoReplace st placaRaw nameRaw file).trucks = st.trucks := by
  constructor
  · unfold adminPhotoDelete
    cases getIdFromUrlOrName (jsTrim nameRaw) with
    | none => rfl
    | some pid =>
      by_cases h : jsUpper (jsTrim placaRaw) = ""
      · simp [h]
      · simp [h, deletePhotoDbById]
  · unfold adminPhotoReplace
    cases getIdFromUrlOrName (jsTrim nameRaw) with
    | none => rfl
    | some pid =>
      by_cases h : jsUpper (jsTrim placaRaw) = ""
      · simp [h]
      · cases file with
        | none => simp [h]
        | some f => simp [h, replacePhotoDbById]

end CamionesQR
